import Mathlib

/-!
Verification of the Matchlog fixture-aggregation and preference-sync core.

The definitions below are a shallow embedding of the TypeScript source:
  * `src/lib/sportsdb.ts` — upstream fixture client, normalization, the
    per-date in-memory cache with a freshness window that is shorter for
    the current calendar date (30 s) than for any other date (5 min);
  * `src/app/api/events/route.ts` — `groupByLeague`;
  * `src/lib/db.ts` — watched-event store (`addWatchedEvent`,
    `removeWatchedEvent`, `listWatchedEventIds`) and the user-preferences
    store (`getUserPreferences`, `updateUserPreferences`, whose merge is
    the PostgreSQL JSONB shallow `||` merge).
Effects are made explicit: the wall clock is a `Nat` parameter, the HTTP
layer is an oracle `String → LeagueConfig → UpstreamResponse`, and each
store is explicit state threaded through the operations.
-/

namespace Matchlog

/-- Raw upstream record (`SportsDbEvent` in `sportsdb.ts`).  Every field the
feed may omit or null is an `Option`; the TypeScript code guards the id
fields with JavaScript falsiness checks, so the empty string matters too. -/
structure SportsDbEvent where
  idEvent : Option String
  idLeague : Option String
  strLeague : Option String
  strEvent : Option String
  strHomeTeam : Option String
  strAwayTeam : Option String
  intHomeScore : Option String
  intAwayScore : Option String
  dateEvent : Option String
  strTime : Option String
deriving Repr, DecidableEq

/-- Static league configuration (`LeagueConfig` in `sportsdb.ts`). -/
structure LeagueConfig where
  id : String
  name : String
  query : String
  badge : String
deriving Repr, DecidableEq

/-- Normalized fixture (`NormalizedEvent` in `sportsdb.ts`).  Text fields are
plain strings (never null); scores stay optional. -/
structure NormalizedEvent where
  eventId : String
  leagueId : String
  leagueName : String
  leagueBadge : String
  date : String
  time : String
  homeTeam : String
  awayTeam : String
  homeScore : Option Int
  awayScore : Option Int
deriving Repr, DecidableEq

/-- JavaScript falsiness of a nullable string: `null`/`undefined` and the
empty string are falsy (`!event.idEvent`, `event.idLeague || league.id`). -/
def jsFalsy : Option String → Bool
  | none => true
  | some s => s.isEmpty

/-- Stand-in for the JavaScript `Number(...)` coercion applied to the
integer score strings the feed supplies.  The claims only distinguish null
from non-null scores, so non-numeric input (NaN in JavaScript) is read as 0
here; it is never hit by any theorem below. -/
def jsNumber (s : String) : Int := (s.toInt?).getD 0

/-- The seven statically configured leagues (`FEATURED_LEAGUES`). -/
def FEATURED_LEAGUES : List LeagueConfig := [
  { id := "4328", name := "English Premier League", query := "English Premier League", badge := "https://r2.thesportsdb.com/images/media/league/badge/gasy9d1737743125.png" },
  { id := "4335", name := "Spanish La Liga", query := "Spanish La Liga", badge := "https://r2.thesportsdb.com/images/media/league/badge/ja4it51687628717.png" },
  { id := "4332", name := "Italian Serie A", query := "Italian Serie A", badge := "https://r2.thesportsdb.com/images/media/league/badge/67q3q21679951383.png" },
  { id := "4331", name := "German Bundesliga", query := "German Bundesliga", badge := "https://r2.thesportsdb.com/images/media/league/badge/teqh1b1679952008.png" },
  { id := "4334", name := "French Ligue 1", query := "French Ligue 1", badge := "https://r2.thesportsdb.com/images/media/league/badge/9f7z9d1742983155.png" },
  { id := "4339", name := "Turkish Super Lig", query := "Turkish Super Lig", badge := "https://r2.thesportsdb.com/images/media/league/badge/h7xx231601671132.png" },
  { id := "4480", name := "UEFA Champions League", query := "UEFA Champions League", badge := "https://r2.thesportsdb.com/images/media/league/badge/facv1u1742998896.png" }
]

/-- `normalizeEvent` from `sportsdb.ts`: drop a record whose `idEvent` or
`dateEvent` is falsy; otherwise default `idLeague` falsy to the configured
league id, `strLeague` null to the configured name, team names null to
"TBD", time null to "", and map non-null score strings through `Number`
while preserving null scores. -/
def normalizeEvent (event : SportsDbEvent) (league : LeagueConfig) :
    Option NormalizedEvent :=
  if jsFalsy event.idEvent || jsFalsy event.dateEvent then
    none
  else
    some {
      eventId := event.idEvent.getD ""
      leagueId := if jsFalsy event.idLeague then league.id else event.idLeague.getD ""
      leagueName := event.strLeague.getD league.name
      leagueBadge := league.badge
      date := event.dateEvent.getD ""
      time := event.strTime.getD ""
      homeTeam := event.strHomeTeam.getD "TBD"
      awayTeam := event.strAwayTeam.getD "TBD"
      homeScore := event.intHomeScore.map jsNumber
      awayScore := event.intAwayScore.map jsNumber }

/-- Outcome of one upstream HTTP GET for a (date, league) pair:
`.error status` when `res.ok` is false, otherwise the `events` array of the
JSON payload, which may itself be null. -/
abbrev UpstreamResponse := Except Nat (Option (List SportsDbEvent))

/-- `fetchLeagueEvents` from `sportsdb.ts`: throw on a non-success upstream
status, otherwise normalize the events array (null treated as empty) and
keep only the records `normalizeEvent` accepts. -/
def fetchLeagueEvents (resp : UpstreamResponse) (league : LeagueConfig) :
    Except Nat (List NormalizedEvent) :=
  match resp with
  | .error status => .error status
  | .ok events => .ok ((events.getD []).filterMap (fun e => normalizeEvent e league))

/-- One entry of the per-date in-memory cache in `sportsdb.ts`. -/
structure CacheEntry where
  expiresAt : Nat
  data : List NormalizedEvent
deriving Repr, DecidableEq

/-- The module-level `cache : Map<string, ...>` keyed by date, as an
association list with `Map.get`/`Map.set` semantics. -/
abbrev Cache := List (String × CacheEntry)

/-- `cache.get(date)`. -/
def cacheGet (c : Cache) (date : String) : Option CacheEntry :=
  (c.find? (fun p => p.1 == date)).map (fun p => p.2)

/-- `cache.set(date, entry)`: replaces any previous entry for the date. -/
def cacheSet (c : Cache) (date : String) (entry : CacheEntry) : Cache :=
  (date, entry) :: c.filter (fun p => p.1 != date)

/-- `CACHE_TTL_MS = 5 * 60 * 1000` from `sportsdb.ts`. -/
def CACHE_TTL_MS : Nat := 5 * 60 * 1000

/-- The freshness window `fetchEventsByDate` attaches to the entry it
writes: 30 s when the requested date is the current calendar date, the
5-minute `CACHE_TTL_MS` otherwise. -/
def ttlFor (date today : String) : Nat :=
  if date == today then 30 * 1000 else CACHE_TTL_MS

/-- Result of `Promise.all` over the per-league fetches: the first rejection
(in league order) fails the whole aggregation, otherwise the per-league
lists are concatenated in league order (`.flat()`). -/
def collectLeagues : List (Except Nat (List NormalizedEvent)) →
    Except Nat (List NormalizedEvent)
  | [] => .ok []
  | .error s :: _ => .error s
  | .ok evs :: rest => (collectLeagues rest).map (fun tail => evs ++ tail)

/-- Observable outcome of one `fetchEventsByDate` call: the returned value
(or thrown error), the cache state afterwards, and whether the upstream
fan-out ran at all. -/
structure FetchOutcome where
  result : Except Nat (List NormalizedEvent)
  cache : Cache
  fetchedUpstream : Bool
deriving Repr

/-- The cache-miss path of `fetchEventsByDate`: fan out `fetchLeagueEvents`
over every configured league, fail wholesale on the first failure (leaving
the cache untouched), otherwise store the concatenation with expiry
`now + ttlFor date today`. -/
def refetchAll (upstream : String → LeagueConfig → UpstreamResponse)
    (today : String) (now : Nat) (date : String) (c : Cache) : FetchOutcome :=
  match collectLeagues
      (FEATURED_LEAGUES.map (fun l => fetchLeagueEvents (upstream date l) l)) with
  | .error s => ⟨.error s, c, true⟩
  | .ok events =>
    ⟨.ok events, cacheSet c date ⟨now + ttlFor date today, events⟩, true⟩

/-- `fetchEventsByDate` from `sportsdb.ts`: serve a still-valid cache entry
verbatim (`cached.expiresAt > Date.now()`) without touching the upstream
feed, otherwise refetch every league and replace the entry. -/
def fetchEventsByDate (upstream : String → LeagueConfig → UpstreamResponse)
    (today : String) (now : Nat) (date : String) (c : Cache) : FetchOutcome :=
  match cacheGet c date with
  | some entry =>
    if now < entry.expiresAt then ⟨.ok entry.data, c, false⟩
    else refetchAll upstream today now date c
  | none => refetchAll upstream today now date c

/-- Whether the cache holds a still-valid entry for the date, i.e. the
condition `cached && cached.expiresAt > Date.now()` of `fetchEventsByDate`. -/
def validCache (c : Cache) (date : String) (now : Nat) : Bool :=
  match cacheGet c date with
  | some entry => decide (now < entry.expiresAt)
  | none => false

/-- The intermediate `Map<string, NormalizedEvent[]>` built by
`groupByLeague` in `src/app/api/events/route.ts`, as an association list in
first-insertion order. -/
abbrev Grouped := List (String × List NormalizedEvent)

/-- `grouped.get(leagueId)`. -/
def groupedGet (m : Grouped) (leagueId : String) : Option (List NormalizedEvent) :=
  (m.find? (fun p => p.1 == leagueId)).map (fun p => p.2)

/-- One iteration of the `for` loop of `groupByLeague`: push the event onto
its league bucket, creating the bucket on first sight.  JavaScript `Map`
semantics: an existing key keeps its position, a new key is appended. -/
def groupedPush : Grouped → NormalizedEvent → Grouped
  | [], e => [(e.leagueId, [e])]
  | p :: m, e =>
    if p.1 == e.leagueId then (p.1, p.2 ++ [e]) :: m else p :: groupedPush m e

/-- The bucket map `groupByLeague` builds from the event list. -/
def buildGrouped (events : List NormalizedEvent) : Grouped :=
  events.foldl groupedPush []

/-- One element of the response array of `groupByLeague`. -/
structure LeagueGroup where
  id : String
  name : String
  events : List NormalizedEvent
deriving Repr, DecidableEq

/-- `groupByLeague` from `src/app/api/events/route.ts`: one group per
configured league, in configuration order, with `grouped.get(id) ?? []` as
its events. -/
def groupByLeague (events : List NormalizedEvent) : List LeagueGroup :=
  FEATURED_LEAGUES.map (fun league =>
    { id := league.id
      name := league.name
      events := (groupedGet (buildGrouped events) league.id).getD [] })

/-- Per-user preference document (`UserPreferences` in `db.ts`): a JSONB
document in which every top-level key is optional; `none` models a key that
is absent from the stored JSON (distinct from a key mapped to `[]`). -/
structure UserPreferences where
  collapsedLeagues : Option (List String) := none
  hiddenLeagues : Option (List String) := none
  leagueOrder : Option (List String) := none
  favoriteTeams : Option (List String) := none
deriving Repr, DecidableEq

/-- The empty JSONB document `\x7b\x7d`. -/
def emptyPrefs : UserPreferences := {}

/-- The PostgreSQL shallow merge `stored || incoming` used by
`updateUserPreferences`: each top-level key present in the incoming partial
replaces the stored value wholesale; absent keys keep the stored value. -/
def mergePrefs (stored incoming : UserPreferences) : UserPreferences :=
  { collapsedLeagues := (incoming.collapsedLeagues).orElse (fun _ => stored.collapsedLeagues)
    hiddenLeagues := (incoming.hiddenLeagues).orElse (fun _ => stored.hiddenLeagues)
    leagueOrder := (incoming.leagueOrder).orElse (fun _ => stored.leagueOrder)
    favoriteTeams := (incoming.favoriteTeams).orElse (fun _ => stored.favoriteTeams) }

/-- The `user_preferences` table: at most one row per `user_id` (primary
key); the `created_at`/`updated_at` bookkeeping columns are not modelled,
no claim concerns them. -/
abbrev PrefStore := List (String × UserPreferences)

/-- `getUserPreferences` from `db.ts`: the stored document, or the empty
document when the user has no row. -/
def getUserPreferences (st : PrefStore) (userId : String) : UserPreferences :=
  (((st.find? (fun p => p.1 == userId))).map (fun p => p.2)).getD emptyPrefs

/-- `updateUserPreferences` from `db.ts`: atomic
`INSERT ... ON CONFLICT (user_id) DO UPDATE SET preferences =
user_preferences.preferences || EXCLUDED.preferences` returning the row it
wrote.  A fresh user stores (and gets back) exactly the incoming partial. -/
def updateUserPreferences (st : PrefStore) (userId : String)
    (incoming : UserPreferences) : UserPreferences × PrefStore :=
  match st.find? (fun p => p.1 == userId) with
  | some (_, stored) =>
    let merged := mergePrefs stored incoming
    (merged, st.map (fun p => if p.1 == userId then (userId, merged) else p))
  | none => (incoming, (userId, incoming) :: st)

/-- Snapshot columns of one `watched_events` row (the `input` argument of
`addWatchedEvent`, i.e. `WatchedEvent` minus `id`/`createdAt`/`userId`). -/
structure WatchedInput where
  eventId : String
  leagueId : String
  leagueName : String
  date : String
  time : Option String
  homeTeam : String
  awayTeam : String
  homeScore : Option Int
  awayScore : Option Int
deriving Repr, DecidableEq

/-- One row of the `watched_events` table; the `id`/`created_at`
bookkeeping columns are not modelled, no claim concerns them. -/
structure WatchedRow where
  userId : String
  snap : WatchedInput
deriving Repr, DecidableEq

/-- The `watched_events` table, whose unique index is `(user_id, event_id)`. -/
abbrev WatchedStore := List WatchedRow

/-- Match on the `(user_id, event_id)` conflict key. -/
def sameKey (r : WatchedRow) (userId eventId : String) : Bool :=
  r.userId == userId && r.snap.eventId == eventId

/-- Distinctness of two rows on the `(user_id, event_id)` conflict key. -/
def keyDistinct (a b : WatchedRow) : Prop :=
  ¬(a.userId = b.userId ∧ a.snap.eventId = b.snap.eventId)

/-- Invariant enforced by the unique index of `watched_events`: no two rows
share a `(user_id, event_id)` key. -/
def KeyUnique (st : WatchedStore) : Prop := List.Pairwise keyDistinct st

/-- `addWatchedEvent` from `db.ts`: `INSERT ... ON CONFLICT (user_id,
event_id) DO UPDATE SET` every snapshot column to the incoming values —
an upsert that never errors and never duplicates the key. -/
def addWatchedEvent (st : WatchedStore) (userId : String) (input : WatchedInput) :
    WatchedStore :=
  if st.any (fun r => sameKey r userId input.eventId) then
    st.map (fun r => if sameKey r userId input.eventId then { r with snap := input } else r)
  else st ++ [⟨userId, input⟩]

/-- `removeWatchedEvent` from `db.ts`: `DELETE FROM watched_events WHERE
user_id = $1 AND event_id = $2`; deleting a missing row is a no-op. -/
def removeWatchedEvent (st : WatchedStore) (userId eventId : String) : WatchedStore :=
  st.filter (fun r => !(sameKey r userId eventId))

/-- `listWatchedEventIds` from `db.ts`: the event ids of the rows with the
given user and date. -/
def listWatchedEventIds (st : WatchedStore) (userId date : String) : List String :=
  (st.filter (fun r => r.userId == userId && r.snap.date == date)).map
    (fun r => r.snap.eventId)

/-- One group of the composed per-day view handed to the presentation
layer: a league with its fixtures and a collapsed display hint. -/
structure ComposedGroup where
  id : String
  name : String
  collapsed : Bool
  events : List NormalizedEvent
deriving Repr, DecidableEq

/-- Insertion step of the within-league kickoff-time sort (lexical
comparison of the fixed-format time strings). -/
def insertByTime (e : NormalizedEvent) : List NormalizedEvent → List NormalizedEvent
  | [] => [e]
  | x :: xs => if e.time ≤ x.time then e :: x :: xs else x :: insertByTime e xs

/-- Sort a fixture list by kickoff time (insertion sort). -/
def sortByTime (l : List NormalizedEvent) : List NormalizedEvent :=
  l.foldr insertByTime []

/-- Modelled from the spec: ordering of league groups by the user's stored
`leagueOrder` (section 4.6); the reordering code lives in the mobile client
(`matchlog-mobile/app/(tabs)/index.tsx`), which is not among the source
files here.  Leagues named by the order come first, in that order; the
remaining leagues keep configuration order.  An empty order means
configuration order. -/
def applyLeagueOrder (groups : List LeagueGroup) (order : List String) :
    List LeagueGroup :=
  if order.isEmpty then groups
  else (order.filterMap (fun lid => groups.find? (fun g => g.id == lid)))
    ++ groups.filter (fun g => !(order.contains g.id))

/-- Modelled from the spec: the Fixture View Composer `composeView`
(section 4.6).  The grouping step is the source function `groupByLeague`;
the hidden-league filter (`.filter((league) => !hiddenLeagues.has(league.id))`),
the collapsed display hint and the ordering live in the mobile client
(`matchlog-mobile/app/(tabs)/index.tsx`), which is not among the source
files here, so they follow the spec: leagues in `hiddenLeagues` are
excluded entirely; leagues in `collapsedLeagues` keep their fixtures but
carry a collapsed hint; fixtures within a league are sorted by kickoff
time. -/
def composeView (events : List NormalizedEvent) (prefs : UserPreferences) :
    List ComposedGroup :=
  let ordered := applyLeagueOrder (groupByLeague events) (prefs.leagueOrder.getD [])
  (ordered.filter (fun g => !((prefs.hiddenLeagues.getD []).contains g.id))).map
    (fun g =>
      { id := g.id
        name := g.name
        collapsed := (prefs.collapsedLeagues.getD []).contains g.id
        events := sortByTime g.events })

/-- Fixture with an unconfigured league id, used to exercise the grouping
theorem. -/
def strayFixture : NormalizedEvent :=
  { eventId := "800001", leagueId := "9999", leagueName := "Elsewhere League"
    leagueBadge := "", date := "2026-02-01", time := "18:00"
    homeTeam := "A", awayTeam := "B", homeScore := none, awayScore := none }

/-- Preference document hiding the Turkish Super Lig while also collapsing
and reordering other leagues. -/
def hidingPrefs : UserPreferences :=
  { collapsedLeagues := some ["4328"], hiddenLeagues := some ["4339"]
    leagueOrder := some ["4480", "4328"], favoriteTeams := none }

/-- Fixture belonging to the hidden Turkish Super Lig. -/
def turkishFixture : NormalizedEvent :=
  { eventId := "800002", leagueId := "4339", leagueName := "Turkish Super Lig"
    leagueBadge := "", date := "2026-02-01", time := "19:00"
    homeTeam := "Galatasaray", awayTeam := "Fenerbahce"
    homeScore := none, awayScore := none }

/-- Snapshot of the Galatasaray fixture at full time, used as the second
mark of the upsert witness. -/
def watchedSnapFinal : WatchedInput :=
  { eventId := "800002", leagueId := "4339", leagueName := "Turkish Super Lig"
    date := "2026-02-01", time := some "19:00"
    homeTeam := "Galatasaray", awayTeam := "Fenerbahce"
    homeScore := some 2, awayScore := some 1 }

/-- Snapshot of the same fixture before kickoff, used as the first mark. -/
def watchedSnapEarly : WatchedInput :=
  { eventId := "800002", leagueId := "4339", leagueName := "Turkish Super Lig"
    date := "2026-02-01", time := some "19:00"
    homeTeam := "Galatasaray", awayTeam := "Fenerbahce"
    homeScore := none, awayScore := none }

/-- The partial update of the preference scenario: only `hiddenLeagues` is
present. -/
def hiddenOnlyUpdate : UserPreferences :=
  { collapsedLeagues := none, hiddenLeagues := some ["4339"]
    leagueOrder := none, favoriteTeams := none }

/-- Stored preferences used by the merge witness. -/
def storedPrefsSample : UserPreferences :=
  { collapsedLeagues := some ["4328"], hiddenLeagues := some ["4339"]
    leagueOrder := none, favoriteTeams := none }

/-- Partial update touching only `leagueOrder`. -/
def orderOnlyUpdate : UserPreferences :=
  { collapsedLeagues := none, hiddenLeagues := none
    leagueOrder := some ["4480", "4328"], favoriteTeams := none }

/-- Test league configuration for the normalization witness. -/
def testLeague : LeagueConfig :=
  { id := "4339", name := "Turkish Super Lig", query := "Turkish Super Lig", badge := "" }

/-- Raw record missing its fixture id. -/
def rawMissingId : SportsDbEvent :=
  { idEvent := none, idLeague := some "4339", strLeague := some "Turkish Super Lig"
    strEvent := none, strHomeTeam := some "A", strAwayTeam := some "B"
    intHomeScore := none, intAwayScore := none
    dateEvent := some "2026-02-01", strTime := some "19:00" }

/-- Raw record carrying only the required identity fields. -/
def rawSparse : SportsDbEvent :=
  { idEvent := some "900001", idLeague := none, strLeague := none
    strEvent := none, strHomeTeam := none, strAwayTeam := none
    intHomeScore := none, intAwayScore := none
    dateEvent := some "2026-02-01", strTime := none }

/-- What `normalizeEvent` produces for `rawSparse` under `testLeague`. -/
def sparseNormalized : NormalizedEvent :=
  { eventId := "900001", leagueId := "4339", leagueName := "Turkish Super Lig"
    leagueBadge := "", date := "2026-02-01", time := ""
    homeTeam := "TBD", awayTeam := "TBD", homeScore := none, awayScore := none }

/-- Upstream oracle for the failure witness: the Premier League call
returns HTTP 500, every other league succeeds with a null events array. -/
def failingUpstream : String → LeagueConfig → UpstreamResponse :=
  fun _ lg => if lg.id == "4328" then .error 500 else .ok none

/-- Upstream oracle that always succeeds with a null events array. -/
def quietUpstream : String → LeagueConfig → UpstreamResponse := fun _ _ => .ok none

lemma groupedGet_nil (lid : String) : groupedGet [] lid = none := rfl

lemma groupedGet_cons (p : String × List NormalizedEvent) (m : Grouped) (lid : String) :
    groupedGet (p :: m) lid = if p.1 == lid then some p.2 else groupedGet m lid := by
  by_cases h : p.1 == lid <;> simp [groupedGet, List.find?_cons, h]

lemma lookup_groupedPush (m : Grouped) (e : NormalizedEvent) (lid : String) :
    (groupedGet (groupedPush m e) lid).getD [] =
      (groupedGet m lid).getD [] ++ (if e.leagueId == lid then [e] else []) := by
  induction m with
  | nil =>
    by_cases h : e.leagueId == lid <;>
      simp [groupedPush, groupedGet_cons, groupedGet_nil, h]
  | cons p m ih =>
    by_cases hpe : p.1 == e.leagueId
    · have hpe' : p.1 = e.leagueId := by rwa [beq_iff_eq] at hpe
      by_cases hpl : p.1 == lid
      · have hpl' : p.1 = lid := by rwa [beq_iff_eq] at hpl
        have hel : (e.leagueId == lid) = true := by
          rw [beq_iff_eq]; rw [← hpe', hpl']
        simp [groupedPush, hpe, groupedGet_cons, hpl, hel]
      · have hel : ¬((e.leagueId == lid) = true) := by
          rw [beq_iff_eq]; intro hc
          exact hpl (by rw [beq_iff_eq, hpe', hc])
        simp [groupedPush, hpe, groupedGet_cons, hpl, hel]
    · by_cases hpl : p.1 == lid
      · have hel : ¬((e.leagueId == lid) = true) := by
          rw [beq_iff_eq]; intro hc
          exact hpe (by rw [beq_iff_eq]; rw [beq_iff_eq] at hpl; rw [hpl, hc])
        simp [groupedPush, hpe, groupedGet_cons, hpl, hel]
      · simp [groupedPush, hpe, groupedGet_cons, hpl, ih]

lemma lookup_foldl_groupedPush (events : List NormalizedEvent) :
    ∀ (acc : Grouped) (lid : String),
      (groupedGet (List.foldl groupedPush acc events) lid).getD [] =
        (groupedGet acc lid).getD [] ++ events.filter (fun e => e.leagueId == lid) := by
  induction events with
  | nil => intro acc lid; simp
  | cons e events ih =>
    intro acc lid
    by_cases h : e.leagueId == lid <;>
      simp [List.foldl_cons, ih, lookup_groupedPush, h, List.filter_cons]

lemma buildGrouped_lookup (events : List NormalizedEvent) (lid : String) :
    (groupedGet (buildGrouped events) lid).getD [] =
      events.filter (fun e => e.leagueId == lid) := by
  unfold buildGrouped
  rw [lookup_foldl_groupedPush]
  simp [groupedGet_nil]

lemma groupByLeague_events (events : List NormalizedEvent) (g : LeagueGroup)
    (hg : g ∈ groupByLeague events) :
    g.events = events.filter (fun e => e.leagueId == g.id) := by
  unfold groupByLeague at hg
  obtain ⟨league, _, rfl⟩ := List.mem_map.mp hg
  simpa using buildGrouped_lookup events league.id

lemma mem_insertByTime (a e : NormalizedEvent) (l : List NormalizedEvent) :
    a ∈ insertByTime e l ↔ a = e ∨ a ∈ l := by
  induction l with
  | nil => simp [insertByTime]
  | cons x xs ih =>
    by_cases h : e.time ≤ x.time
    · simp [insertByTime, h]
    · simp [insertByTime, h, ih]; tauto

lemma mem_sortByTime (a : NormalizedEvent) (l : List NormalizedEvent) :
    a ∈ sortByTime l ↔ a ∈ l := by
  induction l with
  | nil => simp [sortByTime]
  | cons x xs ih =>
    simp only [sortByTime, List.foldr_cons] at ih ⊢
    rw [mem_insertByTime, ih, List.mem_cons]

lemma mem_applyLeagueOrder (groups : List LeagueGroup) (order : List String)
    (g : LeagueGroup) (hg : g ∈ applyLeagueOrder groups order) : g ∈ groups := by
  unfold applyLeagueOrder at hg
  by_cases h : order.isEmpty
  · simpa [h] using hg
  · rw [if_neg h] at hg
    rcases List.mem_append.mp hg with hg | hg
    · obtain ⟨lid, _, hfind⟩ := List.mem_filterMap.mp hg
      exact List.mem_of_find?_eq_some hfind
    · exact List.mem_of_mem_filter hg

lemma mem_composeView (events : List NormalizedEvent) (prefs : UserPreferences)
    (g : ComposedGroup) (hg : g ∈ composeView events prefs) :
    ∃ g₀ ∈ groupByLeague events, g.id = g₀.id ∧
      (∀ e, e ∈ g.events → e ∈ g₀.events) ∧
      ((prefs.hiddenLeagues.getD []).contains g₀.id) = false := by
  unfold composeView at hg
  obtain ⟨g₀, hg₀, rfl⟩ := List.mem_map.mp hg
  have hmem := List.mem_of_mem_filter hg₀
  have hpred := List.of_mem_filter hg₀
  refine ⟨g₀, mem_applyLeagueOrder _ _ _ hmem, rfl, ?_, ?_⟩
  · intro e he
    exact (mem_sortByTime e g₀.events).mp he
  · simpa using hpred

lemma groupByLeague_ids (events : List NormalizedEvent) :
    (groupByLeague events).map (fun g => g.id) = FEATURED_LEAGUES.map (fun l => l.id) := by
  simp [groupByLeague, List.map_map]

/-- C10: for every list of normalized fixtures, the grouped response has
exactly one group per configured league (7 of them), in configuration
order; a configured league with no fixture for the date still appears, with
an empty events array; and a fixture whose league id is not configured is
absent from every group. -/
theorem group_by_league_static_groups (events : List NormalizedEvent) :
    (groupByLeague events).length = 7 ∧
    (groupByLeague events).map (fun g => g.id) = FEATURED_LEAGUES.map (fun l => l.id) ∧
    (∀ l ∈ FEATURED_LEAGUES, (∀ e ∈ events, e.leagueId ≠ l.id) →
      ({ id := l.id, name := l.name, events := [] } : LeagueGroup) ∈ groupByLeague events) ∧
    (∀ e ∈ events, e.leagueId ∉ FEATURED_LEAGUES.map (fun l => l.id) →
      ∀ g ∈ groupByLeague events, e ∉ g.events) := by
  refine ⟨by simp [groupByLeague, FEATURED_LEAGUES], groupByLeague_ids events, ?_, ?_⟩
  · intro l hl hnone
    have hfilter : events.filter (fun e => e.leagueId == l.id) = [] := by
      rw [List.filter_eq_nil_iff]
      intro e he
      simpa using hnone e he
    refine List.mem_map.mpr ⟨l, hl, ?_⟩
    have := buildGrouped_lookup events l.id
    simp [this, hfilter]
  · intro e _ hid g hg hmem
    rw [groupByLeague_events events g hg] at hmem
    have : e.leagueId = g.id := by simpa using List.of_mem_filter hmem
    obtain ⟨l, hl, rfl⟩ := List.mem_map.mp hg
    have h2 : l.id = e.leagueId := by simpa using this.symm
    exact hid (List.mem_map.mpr ⟨l, hl, h2⟩)

/-- C4: a league in the hidden list contributes nothing to the composed
view, no matter what the collapsed list or the league order contain. -/
theorem hidden_league_absent_from_composed_view
    (events : List NormalizedEvent) (prefs : UserPreferences) (h : String)
    (hh : h ∈ prefs.hiddenLeagues.getD []) :
    (∀ g ∈ composeView events prefs, g.id ≠ h) ∧
    (∀ g ∈ composeView events prefs, ∀ e ∈ g.events, e.leagueId ≠ h) := by
  constructor
  · intro g hg hc
    obtain ⟨g₀, _, hid, _, hhide⟩ := mem_composeView events prefs g hg
    rw [hc] at hid
    rw [← hid] at hhide
    simp at hhide
    exact hhide hh
  · intro g hg e he hc
    obtain ⟨g₀, hg₀, hid, hsub, hhide⟩ := mem_composeView events prefs g hg
    have hmem := hsub e he
    rw [groupByLeague_events events g₀ hg₀] at hmem
    have : e.leagueId = g₀.id := by simpa using List.of_mem_filter hmem
    rw [hc] at this
    rw [← this] at hhide
    simp at hhide
    exact hhide hh

theorem group_by_league_static_groups_witness :
    (groupByLeague [strayFixture]).length = 7 ∧
    ({ id := "4328", name := "English Premier League", events := [] } : LeagueGroup)
      ∈ groupByLeague [strayFixture] ∧
    (∀ g ∈ groupByLeague [strayFixture], strayFixture ∉ g.events) := by
  refine ⟨(group_by_league_static_groups [strayFixture]).1, ?_, ?_⟩
  · exact (group_by_league_static_groups [strayFixture]).2.2.1
      { id := "4328", name := "English Premier League",
        query := "English Premier League",
        badge := "https://r2.thesportsdb.com/images/media/league/badge/gasy9d1737743125.png" }
      (by simp [FEATURED_LEAGUES]) (by simp [strayFixture])
  · exact (group_by_league_static_groups [strayFixture]).2.2.2
      strayFixture (by simp) (by simp [strayFixture, FEATURED_LEAGUES])

theorem hidden_league_absent_from_composed_view_witness :
    (∀ g ∈ composeView [turkishFixture] hidingPrefs, g.id ≠ "4339") ∧
    (∀ g ∈ composeView [turkishFixture] hidingPrefs, ∀ e ∈ g.events,
      e.leagueId ≠ "4339") :=
  hidden_league_absent_from_composed_view [turkishFixture] hidingPrefs "4339"
    (by simp [hidingPrefs])

lemma sameKey_eq (r : WatchedRow) (u e : String) :
    sameKey r u e = true ↔ r.userId = u ∧ r.snap.eventId = e := by
  simp [sameKey]

lemma addWatched_filter_length (st : WatchedStore) (u : String) (input : WatchedInput)
    (huniq : KeyUnique st) :
    ((addWatchedEvent st u input).filter
      (fun r => sameKey r u input.eventId)).length = 1 := by
  unfold addWatchedEvent
  by_cases hany : (st.any fun r => sameKey r u input.eventId) = true
  · simp only [hany, if_true]
    induction st with
    | nil => simp at hany
    | cons r st ih =>
      have hpair := (List.pairwise_cons.mp huniq).1
      have htail : KeyUnique st := (List.pairwise_cons.mp huniq).2
      by_cases hr : sameKey r u input.eventId = true
      · have hkey := (sameKey_eq r u input.eventId).mp hr
        have hnone : ∀ b ∈ st, sameKey b u input.eventId = false := by
          intro b hb
          cases h : sameKey b u input.eventId
          · rfl
          · have hkb := (sameKey_eq b u input.eventId).mp h
            exact absurd ⟨hkey.1.trans hkb.1.symm, hkey.2.trans hkb.2.symm⟩ (hpair b hb)
        have hnewKey : sameKey ({ r with snap := input }) u input.eventId = true := by
          rw [sameKey_eq]
          exact ⟨hkey.1, rfl⟩
        have hrest : (List.filter (fun x => sameKey x u input.eventId)
            (st.map (fun x => if sameKey x u input.eventId = true
              then { x with snap := input } else x))) = [] := by
          rw [List.filter_eq_nil_iff]
          intro y hy
          obtain ⟨x, hx, rfl⟩ := List.mem_map.mp hy
          rw [if_neg (by simp [hnone x hx])]
          simp [hnone x hx]
        simp [hr, List.filter_cons, hnewKey, hrest]
      · have hany' : (st.any fun x => sameKey x u input.eventId) = true := by
          rcases List.any_eq_true.mp hany with ⟨x, hx, hxk⟩
          rcases List.mem_cons.mp hx with rfl | hx'
          · exact absurd hxk hr
          · exact List.any_eq_true.mpr ⟨x, hx', hxk⟩
        have := ih htail hany'
        simp only [List.map_cons, if_neg hr, List.filter_cons, hr]
        simpa [hr] using this
  · simp only [hany, if_false]
    have hnone : ∀ b ∈ st, sameKey b u input.eventId = false := by
      intro b hb
      cases h : sameKey b u input.eventId
      · rfl
      · exact absurd (List.any_eq_true.mpr ⟨b, hb, h⟩) hany
    have h1 : st.filter (fun r => sameKey r u input.eventId) = [] := by
      rw [List.filter_eq_nil_iff]
      intro y hy
      simp [hnone y hy]
    have h2 : sameKey (⟨u, input⟩ : WatchedRow) u input.eventId = true := by
      rw [sameKey_eq]; exact ⟨rfl, rfl⟩
    simp [List.filter_append, h1, List.filter_cons, h2]

lemma sameKey_key_eq (x : WatchedRow) (u : String) (input : WatchedInput) :
    (if sameKey x u input.eventId = true then ({ x with snap := input } : WatchedRow)
      else x).userId = x.userId ∧
    (if sameKey x u input.eventId = true then ({ x with snap := input } : WatchedRow)
      else x).snap.eventId = x.snap.eventId := by
  by_cases h : sameKey x u input.eventId = true
  · have := (sameKey_eq x u input.eventId).mp h
    simp [h, this.2]
  · simp [h]

lemma addWatched_matching_row (st : WatchedStore) (u : String) (input : WatchedInput) :
    ∀ r ∈ addWatchedEvent st u input, sameKey r u input.eventId = true →
      r = ⟨u, input⟩ := by
  unfold addWatchedEvent
  by_cases hany : (st.any fun r => sameKey r u input.eventId) = true
  · simp only [hany, if_true]
    intro r hr hk
    obtain ⟨x, hx, rfl⟩ := List.mem_map.mp hr
    by_cases hxk : sameKey x u input.eventId = true
    · have := (sameKey_eq x u input.eventId).mp hxk
      simp only [hxk, if_true]
      simp only [hxk, if_true] at hk
      rw [sameKey_eq] at hk
      cases x
      simp_all
    · rw [if_neg hxk] at hk ⊢
      exact absurd hk hxk
  · simp only [hany, if_false]
    intro r hr hk
    rcases List.mem_append.mp hr with hr' | hr'
    · have : sameKey r u input.eventId = false := by
        cases h : sameKey r u input.eventId
        · rfl
        · exact absurd (List.any_eq_true.mpr ⟨r, hr', h⟩) hany
      rw [this] at hk
      exact absurd hk (by simp)
    · simpa using hr'

lemma addWatched_keyUnique (st : WatchedStore) (u : String) (input : WatchedInput)
    (huniq : KeyUnique st) : KeyUnique (addWatchedEvent st u input) := by
  unfold addWatchedEvent
  by_cases hany : (st.any fun r => sameKey r u input.eventId) = true
  · simp only [hany, if_true]
    rw [KeyUnique, List.pairwise_map]
    apply huniq.imp
    intro a b hab
    have ha := sameKey_key_eq a u input
    have hb := sameKey_key_eq b u input
    intro hc
    exact hab ⟨(ha.1.symm.trans hc.1).trans hb.1, (ha.2.symm.trans hc.2).trans hb.2⟩
  · rw [if_neg hany, KeyUnique, List.pairwise_append]
    refine ⟨huniq, List.pairwise_singleton _ _, ?_⟩
    intro a ha b hb
    rcases List.mem_singleton.mp hb with rfl
    have : sameKey a u input.eventId = false := by
      cases h : sameKey a u input.eventId
      · rfl
      · exact absurd (List.any_eq_true.mpr ⟨a, ha, h⟩) hany
    intro hc
    simp only [sameKey] at this
    simp at this hc
    exact absurd hc.2 (this hc.1)

/-- C7: marking the same (user, event id) twice with two snapshots leaves
exactly one stored row for the key, and its snapshot is the second one;
the upsert never errors and never duplicates the row. -/
theorem add_watched_upsert_second_snapshot (st : WatchedStore) (u : String)
    (s1 s2 : WatchedInput) (_hkey : s1.eventId = s2.eventId) (huniq : KeyUnique st) :
    (((addWatchedEvent (addWatchedEvent st u s1) u s2).filter
        (fun r => sameKey r u s2.eventId)).length = 1) ∧
    (∀ r ∈ addWatchedEvent (addWatchedEvent st u s1) u s2,
      sameKey r u s2.eventId = true → r = ⟨u, s2⟩) := by
  have huniq1 : KeyUnique (addWatchedEvent st u s1) := addWatched_keyUnique st u s1 huniq
  exact ⟨addWatched_filter_length _ u s2 huniq1, addWatched_matching_row _ u s2⟩

theorem add_watched_upsert_second_snapshot_witness :
    (((addWatchedEvent (addWatchedEvent [] "u1" watchedSnapEarly) "u1" watchedSnapFinal).filter
        (fun r => sameKey r "u1" watchedSnapFinal.eventId)).length = 1) ∧
    (∀ r ∈ addWatchedEvent (addWatchedEvent [] "u1" watchedSnapEarly) "u1" watchedSnapFinal,
      sameKey r "u1" watchedSnapFinal.eventId = true → r = ⟨"u1", watchedSnapFinal⟩) :=
  add_watched_upsert_second_snapshot [] "u1" watchedSnapEarly watchedSnapFinal
    (by simp [watchedSnapEarly, watchedSnapFinal]) List.Pairwise.nil

/-- C8: a mark followed by an unmark leaves the per-date id list without
the fixture id, and unmarking a fixture the user never marked changes
nothing (a no-op, not an error). -/
theorem add_remove_roundtrip_and_noop (st : WatchedStore) (u : String)
    (f : WatchedInput) (e : String) :
    (f.eventId ∉ listWatchedEventIds
      (removeWatchedEvent (addWatchedEvent st u f) u f.eventId) u f.date) ∧
    ((∀ r ∈ st, sameKey r u e = false) → removeWatchedEvent st u e = st) := by
  constructor
  · intro hmem
    obtain ⟨r, hr, hre⟩ := List.mem_map.mp hmem
    have hfilt := List.of_mem_filter hr
    have hrem := List.mem_of_mem_filter hr
    have hkeep := List.of_mem_filter hrem
    simp at hfilt
    have : sameKey r u f.eventId = true := by
      rw [sameKey_eq]
      exact ⟨hfilt.1, hre⟩
    unfold removeWatchedEvent at hrem
    have := List.of_mem_filter hrem
    simp_all
  · intro hnone
    rw [removeWatchedEvent, List.filter_eq_self]
    intro r hr
    simp [hnone r hr]

theorem add_remove_roundtrip_and_noop_witness :
    ("800002" ∉ listWatchedEventIds
      (removeWatchedEvent (addWatchedEvent [] "u1" watchedSnapFinal) "u1" "800002")
      "u1" "2026-02-01") ∧
    (removeWatchedEvent [⟨"u2", watchedSnapFinal⟩] "u1" "800009"
      = [⟨"u2", watchedSnapFinal⟩]) := by
  have h := add_remove_roundtrip_and_noop [⟨"u2", watchedSnapFinal⟩] "u1"
    watchedSnapFinal "800009"
  have h0 := add_remove_roundtrip_and_noop [] "u1" watchedSnapFinal "800009"
  constructor
  · have : watchedSnapFinal.eventId = "800002" := by simp [watchedSnapFinal]
    have hd : watchedSnapFinal.date = "2026-02-01" := by simp [watchedSnapFinal]
    rw [← this, ← hd]
    exact h0.1
  · exact h.2 (by intro r hr; simp at hr; subst hr; simp [sameKey, watchedSnapFinal])

/-- C3 counterexample: on a user with no prior preferences, the update does
not fill the omitted keys with empty-array defaults — the returned (and
stored) document carries only the key that was sent, so it differs from the
document the scenario promises. -/
theorem update_prefs_no_defaults_counterexample :
    (updateUserPreferences [] "u1" hiddenOnlyUpdate).1 ≠
      ({ collapsedLeagues := some [], hiddenLeagues := some ["4339"]
         leagueOrder := some [], favoriteTeams := none } : UserPreferences) ∧
    (updateUserPreferences [] "u1" hiddenOnlyUpdate).1.collapsedLeagues = none := by
  constructor
  · intro h
    have := congrArg UserPreferences.collapsedLeagues h
    simp [updateUserPreferences, hiddenOnlyUpdate] at this
  · simp [updateUserPreferences, hiddenOnlyUpdate]

/-- C3 amended: on a user with no prior stored preferences the update
succeeds and returns (and stores) exactly the incoming partial document —
`hiddenLeagues` is `["4339"]` and the omitted keys are absent, not
empty-array defaults. -/
theorem update_prefs_fresh_user_stores_incoming (st : PrefStore) (u : String)
    (hfresh : st.find? (fun p => p.1 == u) = none) :
    (updateUserPreferences st u hiddenOnlyUpdate).1 = hiddenOnlyUpdate ∧
    getUserPreferences (updateUserPreferences st u hiddenOnlyUpdate).2 u =
      hiddenOnlyUpdate := by
  unfold updateUserPreferences
  rw [hfresh]
  refine ⟨rfl, ?_⟩
  simp [getUserPreferences, List.find?_cons]

theorem update_prefs_fresh_user_stores_incoming_witness :
    (updateUserPreferences [] "u1" hiddenOnlyUpdate).1 = hiddenOnlyUpdate ∧
    getUserPreferences (updateUserPreferences [] "u1" hiddenOnlyUpdate).2 "u1" =
      hiddenOnlyUpdate :=
  update_prefs_fresh_user_stores_incoming [] "u1" rfl

lemma find?_prefstore_update (st : PrefStore) (u : String) (merged : UserPreferences)
    (h : (st.find? (fun p => p.1 == u)).isSome = true) :
    (st.map (fun p => if p.1 == u then (u, merged) else p)).find?
      (fun p => p.1 == u) = some (u, merged) := by
  induction st with
  | nil => simp at h
  | cons p st ih =>
    by_cases hp : (p.1 == u) = true
    · have hp' : p.1 = u := by rwa [beq_iff_eq] at hp
      subst hp'
      simp [List.find?_cons]
    · rw [List.find?_cons_of_neg _ (by simpa using hp)] at h
      simp only [List.map_cons, if_neg hp]
      rw [List.find?_cons_of_neg _ (by simpa using hp)]
      exact ih h

/-- C5: the preference update merges key by key at the top level — a key
present in the incoming partial replaces the stored value for that key
wholesale, a key absent from the partial keeps the stored value — and the
merged document is what ends up stored for the user. -/
theorem update_prefs_shallow_merge (st : PrefStore) (u : String)
    (incoming : UserPreferences) :
    (∀ v, incoming.collapsedLeagues = some v →
      (updateUserPreferences st u incoming).1.collapsedLeagues = some v) ∧
    (incoming.collapsedLeagues = none →
      (updateUserPreferences st u incoming).1.collapsedLeagues =
        (getUserPreferences st u).collapsedLeagues) ∧
    (∀ v, incoming.hiddenLeagues = some v →
      (updateUserPreferences st u incoming).1.hiddenLeagues = some v) ∧
    (incoming.hiddenLeagues = none →
      (updateUserPreferences st u incoming).1.hiddenLeagues =
        (getUserPreferences st u).hiddenLeagues) ∧
    (∀ v, incoming.leagueOrder = some v →
      (updateUserPreferences st u incoming).1.leagueOrder = some v) ∧
    (incoming.leagueOrder = none →
      (updateUserPreferences st u incoming).1.leagueOrder =
        (getUserPreferences st u).leagueOrder) ∧
    (∀ v, incoming.favoriteTeams = some v →
      (updateUserPreferences st u incoming).1.favoriteTeams = some v) ∧
    (incoming.favoriteTeams = none →
      (updateUserPreferences st u incoming).1.favoriteTeams =
        (getUserPreferences st u).favoriteTeams) ∧
    getUserPreferences (updateUserPreferences st u incoming).2 u =
      (updateUserPreferences st u incoming).1 := by
  unfold updateUserPreferences getUserPreferences
  cases hfind : st.find? (fun p => p.1 == u) with
  | none =>
    simp only [hfind]
    refine ⟨?_, ?_, ?_, ?_, ?_, ?_, ?_, ?_, ?_⟩
    · intro v h; simp [h]
    · intro h; simp [h, emptyPrefs]
    · intro v h; simp [h]
    · intro h; simp [h, emptyPrefs]
    · intro v h; simp [h]
    · intro h; simp [h, emptyPrefs]
    · intro v h; simp [h]
    · intro h; simp [h, emptyPrefs]
    · simp [List.find?_cons]
  | some pair =>
    obtain ⟨a, stored⟩ := pair
    simp only [hfind]
    have hupd := find?_prefstore_update st u (mergePrefs stored incoming)
      (by rw [hfind]; rfl)
    refine ⟨?_, ?_, ?_, ?_, ?_, ?_, ?_, ?_, ?_⟩
    · intro v h; simp [mergePrefs, h, Option.orElse]
    · intro h; simp [mergePrefs, h, Option.orElse]
    · intro v h; simp [mergePrefs, h, Option.orElse]
    · intro h; simp [mergePrefs, h, Option.orElse]
    · intro v h; simp [mergePrefs, h, Option.orElse]
    · intro h; simp [mergePrefs, h, Option.orElse]
    · intro v h; simp [mergePrefs, h, Option.orElse]
    · intro h; simp [mergePrefs, h, Option.orElse]
    · simp only [hupd]
      simp

theorem update_prefs_shallow_merge_witness :
    (updateUserPreferences [("u1", storedPrefsSample)] "u1" orderOnlyUpdate).1.leagueOrder
      = some ["4480", "4328"] ∧
    (updateUserPreferences [("u1", storedPrefsSample)] "u1" orderOnlyUpdate).1.hiddenLeagues
      = (getUserPreferences [("u1", storedPrefsSample)] "u1").hiddenLeagues := by
  have h := update_prefs_shallow_merge [("u1", storedPrefsSample)] "u1" orderOnlyUpdate
  exact ⟨h.2.2.2.2.1 ["4480", "4328"] rfl, h.2.2.2.1 rfl⟩

/-- C9: normalization drops a record whose fixture id or date is missing;
otherwise a missing team name becomes "TBD", a missing kickoff time becomes
the empty string, and a null score stays null. -/
theorem normalize_event_defaults (event : SportsDbEvent) (league : LeagueConfig) :
    ((event.idEvent = none ∨ event.dateEvent = none) →
      normalizeEvent event league = none) ∧
    (∀ ne, normalizeEvent event league = some ne →
      (event.strHomeTeam = none → ne.homeTeam = "TBD") ∧
      (event.strAwayTeam = none → ne.awayTeam = "TBD") ∧
      (event.strTime = none → ne.time = "") ∧
      (event.intHomeScore = none → ne.homeScore = none) ∧
      (event.intAwayScore = none → ne.awayScore = none)) := by
  constructor
  · rintro (h | h) <;> simp [normalizeEvent, h, jsFalsy]
  · intro ne h
    unfold normalizeEvent at h
    by_cases hg : (jsFalsy event.idEvent || jsFalsy event.dateEvent) = true
    · rw [if_pos hg] at h
      exact absurd h (by simp)
    · rw [if_neg hg] at h
      obtain rfl := Option.some.inj h
      refine ⟨?_, ?_, ?_, ?_, ?_⟩ <;> intro hf <;> simp [hf]

theorem normalize_event_defaults_witness :
    normalizeEvent rawMissingId testLeague = none ∧
    normalizeEvent rawSparse testLeague = some sparseNormalized ∧
    sparseNormalized.homeTeam = "TBD" ∧ sparseNormalized.awayTeam = "TBD" ∧
    sparseNormalized.time = "" ∧ sparseNormalized.homeScore = none ∧
    sparseNormalized.awayScore = none := by
  have heq : normalizeEvent rawSparse testLeague = some sparseNormalized := by
    rw [normalizeEvent, if_neg (by decide)]
    rfl
  have h2 := (normalize_event_defaults rawSparse testLeague).2 sparseNormalized heq
  exact ⟨(normalize_event_defaults rawMissingId testLeague).1 (Or.inl rfl), heq,
    h2.1 rfl, h2.2.1 rfl, h2.2.2.1 rfl, h2.2.2.2.1 rfl, h2.2.2.2.2 rfl⟩

lemma fetch_miss (up : String → LeagueConfig → UpstreamResponse) (today : String)
    (now : Nat) (date : String) (c : Cache) (h : validCache c date now = false) :
    fetchEventsByDate up today now date c = refetchAll up today now date c := by
  unfold fetchEventsByDate
  unfold validCache at h
  cases hc : cacheGet c date with
  | none => rfl
  | some entry =>
    rw [hc] at h
    simp only [decide_eq_false_iff_not] at h
    dsimp only
    rw [if_neg h]

lemma cacheGet_cacheSet (c : Cache) (date : String) (entry : CacheEntry) :
    cacheGet (cacheSet c date entry) date = some entry := by
  simp [cacheGet, cacheSet, List.find?_cons]

lemma collect_error (rs : List (Except Nat (List NormalizedEvent)))
    (h : ∃ s, Except.error s ∈ rs) :
    ∃ s', collectLeagues rs = .error s' := by
  obtain ⟨s, hs⟩ := h
  induction rs with
  | nil => simp at hs
  | cons r rs ih =>
    cases r with
    | error t => exact ⟨t, rfl⟩
    | ok evs =>
      rcases List.mem_cons.mp hs with h' | h'
      · exact absurd h' (by simp)
      · obtain ⟨s', hs'⟩ := ih h'
        refine ⟨s', ?_⟩
        rw [collectLeagues, hs']
        rfl

/-- C2: on a cache miss, if any configured league's upstream call fails
with a non-success status, the whole aggregation for the date fails and the
cache is left exactly as it was — no entry, partial or otherwise, is
written. -/
theorem league_failure_fails_whole_aggregation
    (up : String → LeagueConfig → UpstreamResponse) (today : String) (now : Nat)
    (date : String) (c : Cache) (hmiss : validCache c date now = false)
    (l : LeagueConfig) (hl : l ∈ FEATURED_LEAGUES) (s : Nat)
    (hfail : up date l = .error s) :
    (∃ s', (fetchEventsByDate up today now date c).result = .error s') ∧
    (fetchEventsByDate up today now date c).cache = c := by
  rw [fetch_miss up today now date c hmiss]
  unfold refetchAll
  have herr : ∃ s',
      collectLeagues (FEATURED_LEAGUES.map
        (fun lg => fetchLeagueEvents (up date lg) lg)) = .error s' := by
    apply collect_error
    exact ⟨s, List.mem_map.mpr ⟨l, hl, by simp [fetchLeagueEvents, hfail]⟩⟩
  obtain ⟨s', hs'⟩ := herr
  rw [hs']
  exact ⟨⟨s', rfl⟩, rfl⟩

theorem league_failure_fails_whole_aggregation_witness :
    (∃ s', (fetchEventsByDate failingUpstream "2026-02-02" 0 "2026-02-01" []).result
      = .error s') ∧
    (fetchEventsByDate failingUpstream "2026-02-02" 0 "2026-02-01" []).cache = [] := by
  refine league_failure_fails_whole_aggregation failingUpstream "2026-02-02" 0
    "2026-02-01" [] rfl
    { id := "4328", name := "English Premier League",
      query := "English Premier League",
      badge := "https://r2.thesportsdb.com/images/media/league/badge/gasy9d1737743125.png" }
    (by simp [FEATURED_LEAGUES]) 500 (by simp [failingUpstream])

lemma ok_entry_data (up : String → LeagueConfig → UpstreamResponse) (today : String)
    (now : Nat) (date : String) (c : Cache) (data : List NormalizedEvent)
    (h : (fetchEventsByDate up today now date c).result = .ok data) :
    ∀ e, cacheGet (fetchEventsByDate up today now date c).cache date = some e →
      e.data = data := by
  intro e he
  unfold fetchEventsByDate at h he
  cases hc : cacheGet c date with
  | some entry =>
    rw [hc] at h he
    dsimp only at h he
    by_cases hlt : now < entry.expiresAt
    · rw [if_pos hlt] at h he
      simp at h he
      rw [hc] at he
      obtain rfl := Option.some.inj he
      exact h.symm ▸ rfl
    · rw [if_neg hlt] at h he
      unfold refetchAll at h he
      cases hcol : collectLeagues (FEATURED_LEAGUES.map
          (fun lg => fetchLeagueEvents (up date lg) lg)) with
      | error s => rw [hcol] at h; exact absurd h (by simp)
      | ok evs =>
        rw [hcol] at h he
        simp at h he
        rw [cacheGet_cacheSet] at he
        obtain rfl := Option.some.inj he
        exact h ▸ rfl
  | none =>
    rw [hc] at h he
    dsimp only at h he
    unfold refetchAll at h he
    cases hcol : collectLeagues (FEATURED_LEAGUES.map
        (fun lg => fetchLeagueEvents (up date lg) lg)) with
    | error s => rw [hcol] at h; exact absurd h (by simp)
    | ok evs =>
      rw [hcol] at h he
      simp at h he
      rw [cacheGet_cacheSet] at he
      obtain rfl := Option.some.inj he
      exact h ▸ rfl

lemma fetch_hit (up : String → LeagueConfig → UpstreamResponse) (today : String)
    (now : Nat) (date : String) (c : Cache) (e : CacheEntry)
    (hc : cacheGet c date = some e) (hlt : now < e.expiresAt) :
    fetchEventsByDate up today now date c = ⟨.ok e.data, c, false⟩ := by
  unfold fetchEventsByDate
  rw [hc]
  dsimp only
  rw [if_pos hlt]

/-- C6: a second call while the entry written (or kept) by the first is
still valid returns the identical cached list verbatim, touches no upstream
feed (even a different oracle is never consulted), and leaves the cache
unchanged. -/
theorem cache_hit_returns_cached_verbatim
    (up up' : String → LeagueConfig → UpstreamResponse) (today : String)
    (now₁ now₂ : Nat) (date : String) (c : Cache) (data : List NormalizedEvent)
    (h1 : (fetchEventsByDate up today now₁ date c).result = .ok data)
    (h2 : validCache (fetchEventsByDate up today now₁ date c).cache date now₂ = true) :
    (fetchEventsByDate up' today now₂ date
      (fetchEventsByDate up today now₁ date c).cache).result = .ok data ∧
    (fetchEventsByDate up' today now₂ date
      (fetchEventsByDate up today now₁ date c).cache).fetchedUpstream = false ∧
    (fetchEventsByDate up' today now₂ date
      (fetchEventsByDate up today now₁ date c).cache).cache =
      (fetchEventsByDate up today now₁ date c).cache := by
  unfold validCache at h2
  cases hc : cacheGet (fetchEventsByDate up today now₁ date c).cache date with
  | none => rw [hc] at h2; exact absurd h2 (by simp)
  | some e =>
    rw [hc] at h2
    simp only [decide_eq_true_eq] at h2
    have hdata : e.data = data := ok_entry_data up today now₁ date c data h1 e hc
    rw [fetch_hit up' today now₂ date _ e hc h2, hdata]
    exact ⟨rfl, rfl, rfl⟩

theorem cache_hit_returns_cached_verbatim_witness :
    (fetchEventsByDate quietUpstream "2026-02-02" 1000 "2026-02-01"
      (fetchEventsByDate quietUpstream "2026-02-02" 0 "2026-02-01" []).cache).result
      = .ok [] ∧
    (fetchEventsByDate quietUpstream "2026-02-02" 1000 "2026-02-01"
      (fetchEventsByDate quietUpstream "2026-02-02" 0 "2026-02-01" []).cache).fetchedUpstream
      = false ∧
    (fetchEventsByDate quietUpstream "2026-02-02" 1000 "2026-02-01"
      (fetchEventsByDate quietUpstream "2026-02-02" 0 "2026-02-01" []).cache).cache
      = (fetchEventsByDate quietUpstream "2026-02-02" 0 "2026-02-01" []).cache :=
  cache_hit_returns_cached_verbatim quietUpstream quietUpstream "2026-02-02" 0 1000
    "2026-02-01" [] [] (by rfl) (by rfl)

lemma miss_ok_written_entry (up : String → LeagueConfig → UpstreamResponse)
    (today : String) (now : Nat) (date : String) (c : Cache)
    (data : List NormalizedEvent) (hmiss : validCache c date now = false)
    (h : (fetchEventsByDate up today now date c).result = .ok data) :
    cacheGet (fetchEventsByDate up today now date c).cache date =
      some ⟨now + ttlFor date today, data⟩ := by
  rw [fetch_miss up today now date c hmiss] at h ⊢
  unfold refetchAll at h ⊢
  cases hcol : collectLeagues (FEATURED_LEAGUES.map
      (fun lg => fetchLeagueEvents (up date lg) lg)) with
  | error s =>
    rw [hcol] at h
    exact absurd h (by simp)
  | ok evs =>
    rw [hcol] at h
    dsimp only at h
    obtain rfl := Except.ok.inj h
    exact cacheGet_cacheSet c date _

/-- C1: on a cache miss, the entry `fetchEventsByDate` writes for the
current calendar date carries a freshness window (expiry minus write time)
strictly shorter than the window of the entry written for any other date. -/
theorem today_window_strictly_shorter
    (up up' : String → LeagueConfig → UpstreamResponse) (today dOther : String)
    (now now' : Nat) (c c' : Cache) (data data' : List NormalizedEvent)
    (hd : dOther ≠ today)
    (hm : validCache c today now = false)
    (hm' : validCache c' dOther now' = false)
    (h : (fetchEventsByDate up today now today c).result = .ok data)
    (h' : (fetchEventsByDate up' today now' dOther c').result = .ok data') :
    ∃ e e',
      cacheGet (fetchEventsByDate up today now today c).cache today = some e ∧
      cacheGet (fetchEventsByDate up' today now' dOther c').cache dOther = some e' ∧
      e.expiresAt - now < e'.expiresAt - now' := by
  refine ⟨_, _, miss_ok_written_entry up today now today c data hm h,
    miss_ok_written_entry up' today now' dOther c' data' hm' h', ?_⟩
  have ht : ttlFor today today = 30 * 1000 := by
    simp [ttlFor]
  have ho : ttlFor dOther today = CACHE_TTL_MS := by
    simp [ttlFor, hd]
  simp only [ht, ho, Nat.add_sub_cancel_left, CACHE_TTL_MS]
  norm_num

theorem today_window_strictly_shorter_witness :
    ∃ e e',
      cacheGet (fetchEventsByDate quietUpstream "2026-02-05" 0 "2026-02-05" []).cache
        "2026-02-05" = some e ∧
      cacheGet (fetchEventsByDate quietUpstream "2026-02-05" 0 "2026-02-01" []).cache
        "2026-02-01" = some e' ∧
      e.expiresAt - 0 < e'.expiresAt - 0 :=
  today_window_strictly_shorter quietUpstream quietUpstream "2026-02-05" "2026-02-01"
    0 0 [] [] [] [] (by decide) rfl rfl (by rfl) (by rfl)

end Matchlog
